import Mathlib

/-!
Shallow embedding of the `stack-status` tool (Rust, 5 source files) for
checking its natural-language specification.

Conventions of the embedding:
* Rust `Vec<T>` becomes `List T`, `Option<T>` becomes `Option T`,
  `anyhow::Result<T>` becomes `Except String T` (the error payload is the
  message; its exact value is irrelevant to every property below).
* `usize`/`u64` counters become `Nat`: every count here is a list length or
  bounded by one, far below any machine-width wraparound, so modular
  reduction is never observable.
* A spawned subprocess (`tokio::process::Command ... .output().await`) is
  modelled by an `Except String CmdOutput` value: `.error` is the spawn
  failing (the `?` on `.output().await`), `.ok` carries the exit-status
  success flag and the (lossy-UTF-8-decoded) stdout text.
* `chrono::DateTime::parse_from_rfc3339` is modelled by an abstract parse
  function `String → Option Int` returning the instant in whole seconds;
  `serde_json::from_slice::<Vec<RawCheck>>` by an abstract
  `String → Option (List RawCheck)`.  All theorems quantify over these, so
  they hold for every behaviour of the real parsers.
-/

namespace StackSt

/-- Status enumeration of `github.rs` (`enum CheckStatus`). -/
inductive CheckStatus where
  | Passed
  | Failed
  | Running
  | Queued
  | Skipped
  | Cancelled
  | Unknown
deriving DecidableEq, Repr

/-- Raw check record as deserialized from the `gh` CLI (`struct RawCheck`). -/
structure RawCheck where
  name : String
  state : Option String
  conclusion : Option String
  started_at : Option String
  completed_at : Option String
  details_url : Option String
  bucket : Option String
deriving DecidableEq, Repr

/-- Normalized check information (`struct Check` in `github.rs`). -/
structure Check where
  name : String
  status : CheckStatus
  conclusion : Option String
  duration_secs : Option Nat
  url : Option String
deriving DecidableEq, Repr

/-- Embedding of `normalize_check` (`github.rs`).  `parseTs` models
`chrono::DateTime::parse_from_rfc3339` composed with reading off the
timestamp in whole seconds; `(e - s).num_seconds().max(0) as u64` becomes
`((te - ts).max 0).toNat` (both are `max 0 (end - start)` in seconds,
converted to an unsigned integer). -/
def normalize_check (parseTs : String → Option Int) (raw : RawCheck) : Check :=
  let status : CheckStatus :=
    match raw.bucket with
    | some "pass" => .Passed
    | some "fail" => .Failed
    | some "pending" =>
        if raw.state = some "IN_PROGRESS" then .Running else .Queued
    | some "skipping" => .Skipped
    | some "cancel" => .Cancelled
    | _ => .Unknown
  let duration_secs : Option Nat :=
    match raw.started_at, raw.completed_at with
    | some s, some e =>
        match parseTs s, parseTs e with
        | some ts, some te => some (max (te - ts) 0).toNat
        | _, _ => none
    | _, _ => none
  { name := raw.name
    status := status
    conclusion := raw.conclusion
    duration_secs := duration_secs
    url := raw.details_url }

/-- Summary of check statuses (`struct CheckSummary` in `github.rs`). -/
structure CheckSummary where
  total : Nat
  passed : Nat
  failed : Nat
  running : Nat
  queued : Nat
  skipped : Nat
  cancelled : Nat
  overall : CheckStatus
deriving DecidableEq, Repr

/-- Embedding of `CheckSummary::text` (`github.rs`). -/
def CheckSummary.text (s : CheckSummary) : String :=
  if s.failed > 0 then
    toString s.failed ++ " failed"
  else if s.running > 0 ∨ s.queued > 0 then
    toString s.passed ++ "/" ++ toString s.total ++ " running"
  else if s.passed > 0 then
    toString s.passed ++ "/" ++ toString s.total ++ " passed"
  else
    "no checks"

/-- One iteration of the counting loop inside `summarize_checks`. -/
def countStep (s : CheckSummary) (c : Check) : CheckSummary :=
  match c.status with
  | .Passed => { s with passed := s.passed + 1 }
  | .Failed => { s with failed := s.failed + 1 }
  | .Running => { s with running := s.running + 1 }
  | .Queued => { s with queued := s.queued + 1 }
  | .Skipped => { s with skipped := s.skipped + 1 }
  | .Cancelled => { s with cancelled := s.cancelled + 1 }
  | .Unknown => s

/-- Embedding of `summarize_checks` (`github.rs`): initialise the summary
with `total = checks.len()` and zero counts, run the counting loop, then
set `overall` by the precedence chain. -/
def summarize_checks (checks : List Check) : CheckSummary :=
  let init : CheckSummary :=
    { total := checks.length, passed := 0, failed := 0, running := 0
      queued := 0, skipped := 0, cancelled := 0, overall := .Unknown }
  let s := checks.foldl countStep init
  { s with overall :=
      if s.failed > 0 then .Failed
      else if s.running > 0 ∨ s.queued > 0 then .Running
      else if s.passed > 0 then .Passed
      else .Unknown }

/-- Number of checks in the list carrying a given status. -/
def statusCount (st : CheckStatus) (checks : List Check) : Nat :=
  checks.countP (fun c => c.status = st)

/-- Branch descriptor (`struct BranchInfo` in `main.rs`). -/
structure BranchInfo where
  name : String
  is_current : Bool
  is_trunk : Bool
deriving DecidableEq, Repr

/-- Characters with the Unicode `White_Space` property, which is what
Rust's `char::is_whitespace` (and hence `str::trim`) tests. -/
def isRustWhitespace (c : Char) : Bool :=
  let n := c.toNat
  (0x9 ≤ n && n ≤ 0xD) || n == 0x20 || n == 0x85 || n == 0xA0 || n == 0x1680 ||
    (0x2000 ≤ n && n ≤ 0x200A) || n == 0x2028 || n == 0x2029 || n == 0x202F ||
    n == 0x205F || n == 0x3000

/-- Rust `str::trim`: remove Unicode whitespace from both ends. -/
def rustTrim (cs : List Char) : List Char :=
  ((cs.dropWhile isRustWhitespace).reverse.dropWhile isRustWhitespace).reverse

/-- Rust `str::lines` on a character list: lines are terminated by `\n`
(optionally preceded by `\r`, which is then removed); the final line
terminator is optional, and a trailing `\r` with no following `\n` is kept. -/
def rustLinesAux : List Char → List Char → List (List Char)
  | [], [] => []
  | [], acc => [acc.reverse]
  | '\n' :: rest, acc =>
      (match acc with
       | '\r' :: t => t.reverse
       | _ => acc.reverse) :: rustLinesAux rest []
  | c :: rest, acc => rustLinesAux rest (c :: acc)

/-- Rust `str::lines` (see `rustLinesAux`). -/
def rustLines (cs : List Char) : List (List Char) :=
  rustLinesAux cs []

/-- Tree-drawing characters stripped by the topology parser
(`tree_chars` in `graphite.rs`). -/
def treeChars : List Char :=
  ['│', '─', '┘', '┐', '└', '┌', '├', '┤', '┬', '┴', '┼', ' ']

/-- Fixed set of conventional trunk names (`trunk_names` in `graphite.rs`). -/
def trunkNames : List String :=
  ["main", "master", "develop", "trunk"]

/-- The characters after the first occurrence of `g`, or `none` when `g`
does not occur.  This models `line.find(g)` followed by slicing the line
at `pos + g.len_utf8()`: both branch glyphs `◉` and `◯` are three UTF-8
bytes wide, so the Rust slice is exactly the text after the found glyph. -/
def afterFirst (g : Char) : List Char → Option (List Char)
  | [] => none
  | c :: rest => if c = g then some rest else afterFirst g rest

/-- Body of the per-line loop of `parse_gt_log_short` (`graphite.rs`):
`none` models the loop's `continue`, `some` the pushed `BranchInfo`. -/
def parseLine (line : List Char) : Option BranchInfo :=
  if rustTrim line = [] then none
  else
    let has_current := line.contains '◉'
    let has_branch := line.contains '◉' || line.contains '◯'
    if has_branch = false then none
    else
      match
        (match afterFirst '◉' line with
         | some r => some r
         | none => afterFirst '◯' line) with
      | none => none
      | some after_ind =>
          let branch_name :=
            rustTrim (after_ind.dropWhile (fun c => treeChars.contains c))
          if branch_name = [] then none
          else
            some { name := String.mk branch_name
                   is_current := has_current
                   is_trunk := trunkNames.contains (String.mk branch_name) }

/-- Embedding of `parse_gt_log_short` (`graphite.rs`): iterate over the
lines of the raw `gt log short` output, skipping lines on which the loop
body `continue`s. -/
def parse_gt_log_short (output : String) : List BranchInfo :=
  (rustLines output.toList).filterMap parseLine

/-- The branch name the parser extracts after the first occurrence of the
glyph `g`: strip tree-drawing characters from the front, then trim
whitespace (used to state which glyph a parsed name came from). -/
def nameAfterGlyph (g : Char) (line : List Char) : List Char :=
  rustTrim (((afterFirst g line).getD []).dropWhile fun c => treeChars.contains c)

/-- Outcome of a subprocess that did spawn: exit-status success flag and
stdout decoded to text (`String::from_utf8_lossy`). -/
structure CmdOutput where
  success : Bool
  stdout : String
deriving DecidableEq, Repr

/-- Rust `str::parse::<u64>`: an optional leading `+` sign, then one or
more ASCII digits, and the value must fit in 64 bits; anything else is a
parse error (`None`). -/
def parse_u64 (s : String) : Option Nat :=
  let ds := match s.toList with
    | '+' :: t => t
    | cs => cs
  if ds = [] then none
  else if ds.all (fun c => c.isDigit) then
    let n := ds.foldl (fun a c => a * 10 + (c.toNat - 48)) 0
    if n < 2 ^ 64 then some n else none
  else none

/-- Embedding of `get_pr_for_branch` (`github.rs`): spawn failure (`.ok()?`)
gives `None`, unsuccessful exit status gives `None`, otherwise the trimmed
stdout is parsed as a `u64` and a parse failure gives `None`. -/
def get_pr_for_branch (cmd : Except String CmdOutput) : Option Nat :=
  match cmd with
  | .error _ => none
  | .ok out =>
      if out.success = false then none
      else parse_u64 (String.mk (rustTrim out.stdout.toList))

/-- Embedding of `get_checks` (`github.rs`): spawn failure propagates as an
error (`?`); an unsuccessful exit status returns `Ok(Vec::new())`; otherwise
the stdout is deserialized (`unwrap_or_default`, so a parse failure becomes
the empty list) and each raw record is normalized. -/
def get_checks (cmd : Except String CmdOutput)
    (parseJson : String → Option (List RawCheck))
    (parseTs : String → Option Int) : Except String (List Check) :=
  match cmd with
  | .error e => .error e
  | .ok out =>
      if out.success = false then .ok []
      else .ok (((parseJson out.stdout).getD []).map (normalize_check parseTs))

/-- Per-branch composed status (`struct BranchStatus` in `main.rs`). -/
structure BranchStatus where
  branch : String
  is_current : Bool
  is_trunk : Bool
  pr : Option Nat
  checks : Option (List Check)
  summary : Option CheckSummary
deriving DecidableEq, Repr

/-- Composed snapshot (`struct StackStatus` in `main.rs`). -/
structure StackStatus where
  branches : List BranchStatus
  timestamp : String
deriving DecidableEq, Repr

/-- Embedding of `StackStatus::all_complete` (`main.rs`). -/
def StackStatus.all_complete (st : StackStatus) : Bool :=
  st.branches.all fun b =>
    b.is_trunk || ((b.summary.map fun s => s.running == 0 && s.queued == 0).getD true)

/-- Collaborator environment for one snapshot composition: the outcomes of
every subprocess the composition may spawn, plus the abstract JSON and
timestamp parsers and the formatted clock reading `now`.  `ghPrCmd` and
`ghChecksCmd` are indexed by branch name (one spawn per branch). -/
structure FetchEnv where
  has_gt : Bool
  has_gh : Bool
  gtLogCmd : Except String CmdOutput
  currentBranchCmd : Except String CmdOutput
  ghPrCmd : String → Except String CmdOutput
  ghChecksCmd : String → Except String CmdOutput
  parseJson : String → Option (List RawCheck)
  parseTs : String → Option Int
  now : String

/-- Embedding of `get_current_branch` (`graphite.rs`): propagates a spawn
failure, otherwise returns the trimmed stdout (the exit status is not
inspected). -/
def get_current_branch (env : FetchEnv) : Except String String :=
  match env.currentBranchCmd with
  | .error e => .error e
  | .ok out => .ok (String.mk (rustTrim out.stdout.toList))

/-- Embedding of `get_stack` (`graphite.rs`): propagates a spawn failure of
`gt log short`; on an unsuccessful exit status falls back to a single
current-branch descriptor; otherwise parses the stdout. -/
def get_stack (env : FetchEnv) : Except String (List BranchInfo) :=
  match env.gtLogCmd with
  | .error e => .error e
  | .ok out =>
      if out.success = false then
        match get_current_branch env with
        | .error e => .error e
        | .ok cur => .ok [{ name := cur, is_current := true, is_trunk := false }]
      else .ok (parse_gt_log_short out.stdout)

/-- The per-branch composition loop shared verbatim by `fetch_status`
(`main.rs`) and `fetch_stack_status` (`mcp.rs`): trunk branches push an
all-`None` status; non-trunk branches resolve a PR (when `gh` is
installed), fetch checks only when a PR was found (an error there aborts
the whole loop via `?`), and derive the summary from the checks. -/
def composeBranches (env : FetchEnv) : List BranchInfo → Except String (List BranchStatus)
  | [] => .ok []
  | b :: rest =>
      if b.is_trunk then
        match composeBranches env rest with
        | .error e => .error e
        | .ok rs =>
            .ok ({ branch := b.name, is_current := b.is_current, is_trunk := true
                   pr := none, checks := none, summary := none } :: rs)
      else
        let prChecks : Except String (Option Nat × Option (List Check)) :=
          if env.has_gh then
            let pr := get_pr_for_branch (env.ghPrCmd b.name)
            if pr.isSome then
              match get_checks (env.ghChecksCmd b.name) env.parseJson env.parseTs with
              | .error e => .error e
              | .ok cs => .ok (pr, some cs)
            else .ok (pr, none)
          else .ok (none, none)
        match prChecks with
        | .error e => .error e
        | .ok (pr, checks) =>
            let summary := checks.map fun c => summarize_checks c
            match composeBranches env rest with
            | .error e => .error e
            | .ok rs =>
                .ok ({ branch := b.name, is_current := b.is_current, is_trunk := false
                       pr := pr, checks := checks, summary := summary } :: rs)

/-- Embedding of `fetch_status` (`main.rs`): obtain the branch list from
Graphite (or the current-branch fallback when `gt` is not installed), run
the composition loop, and stamp the snapshot with the clock reading. -/
def fetch_status (env : FetchEnv) : Except String StackStatus :=
  match
    (if env.has_gt then get_stack env
     else match get_current_branch env with
       | .error e => .error e
       | .ok cur => .ok [{ name := cur, is_current := true, is_trunk := false }]) with
  | .error e => .error e
  | .ok branches =>
      match composeBranches env branches with
      | .error e => .error e
      | .ok bss => .ok { branches := bss, timestamp := env.now }

/-- Embedding of `fetch_stack_status` (`mcp.rs`).  The Rust function
duplicates the body of `main.rs`'s `fetch_status` verbatim (it only sets
the timestamp before the loop instead of after it, which is unobservable
in this pure model since both read the same clock value `env.now`). -/
def fetch_stack_status (env : FetchEnv) : Except String StackStatus :=
  match
    (if env.has_gt then get_stack env
     else match get_current_branch env with
       | .error e => .error e
       | .ok cur => .ok [{ name := cur, is_current := true, is_trunk := false }]) with
  | .error e => .error e
  | .ok branches =>
      match composeBranches env branches with
      | .error e => .error e
      | .ok bss => .ok { branches := bss, timestamp := env.now }

/-- Concrete collaborator environment for witnesses: `gt log short` prints
a one-line stack consisting of the trunk `main` only, and the PR lookup
answers `7` for every branch name — so a PR does exist for the trunk. -/
def envTrunkPr : FetchEnv :=
  { has_gt := true, has_gh := true
    gtLogCmd := .ok ⟨true, "◯ main"⟩
    currentBranchCmd := .ok ⟨true, "main"⟩
    ghPrCmd := fun _ => .ok ⟨true, "7"⟩
    ghChecksCmd := fun _ => .ok ⟨true, ""⟩
    parseJson := fun _ => some []
    parseTs := fun _ => none
    now := "00:00:00" }

/-- Concrete collaborator environment in which the check-lookup command for
the single non-trunk branch (which has PR `42`) runs but exits
unsuccessfully: the provider reports a hard error, as distinct from
printing a valid empty JSON list. -/
def envChecksExitFail : FetchEnv :=
  { has_gt := true, has_gh := true
    gtLogCmd := .ok ⟨true, "◉ feature"⟩
    currentBranchCmd := .ok ⟨true, "feature"⟩
    ghPrCmd := fun _ => .ok ⟨true, "42"⟩
    ghChecksCmd := fun _ => .ok ⟨false, ""⟩
    parseJson := fun _ => none
    parseTs := fun _ => none
    now := "00:00:00" }

/-- Concrete collaborator environment in which the check-lookup command for
the single non-trunk branch (which has PR `42`) fails to spawn at all. -/
def envChecksSpawnFail : FetchEnv :=
  { has_gt := true, has_gh := true
    gtLogCmd := .ok ⟨true, "◉ feature"⟩
    currentBranchCmd := .ok ⟨true, "feature"⟩
    ghPrCmd := fun _ => .ok ⟨true, "42"⟩
    ghChecksCmd := fun _ => .error "spawn failed"
    parseJson := fun _ => none
    parseTs := fun _ => none
    now := "00:00:00" }

/-! ### Counting lemmas for the check aggregator -/

theorem foldl_countStep_spec (l : List Check) : ∀ init : CheckSummary,
    (l.foldl countStep init).total = init.total
  ∧ (l.foldl countStep init).passed = init.passed + statusCount .Passed l
  ∧ (l.foldl countStep init).failed = init.failed + statusCount .Failed l
  ∧ (l.foldl countStep init).running = init.running + statusCount .Running l
  ∧ (l.foldl countStep init).queued = init.queued + statusCount .Queued l
  ∧ (l.foldl countStep init).skipped = init.skipped + statusCount .Skipped l
  ∧ (l.foldl countStep init).cancelled = init.cancelled + statusCount .Cancelled l
  ∧ (l.foldl countStep init).overall = init.overall := by
  induction l with
  | nil => intro init; simp [statusCount]
  | cons c t ih =>
    intro init
    obtain ⟨h1, h2, h3, h4, h5, h6, h7, h8⟩ := ih (countStep init c)
    simp only [List.foldl_cons, h1, h2, h3, h4, h5, h6, h7, h8]
    cases hc : c.status <;>
      simp [statusCount, List.countP_cons, hc, countStep] <;>
      omega

theorem summarize_total (checks : List Check) :
    (summarize_checks checks).total = checks.length := by
  have h := (foldl_countStep_spec checks
    ⟨checks.length, 0, 0, 0, 0, 0, 0, .Unknown⟩).1
  simpa [summarize_checks] using h

theorem summarize_passed (checks : List Check) :
    (summarize_checks checks).passed = statusCount .Passed checks := by
  have h := (foldl_countStep_spec checks
    ⟨checks.length, 0, 0, 0, 0, 0, 0, .Unknown⟩).2.1
  simpa [summarize_checks] using h

theorem summarize_failed (checks : List Check) :
    (summarize_checks checks).failed = statusCount .Failed checks := by
  have h := (foldl_countStep_spec checks
    ⟨checks.length, 0, 0, 0, 0, 0, 0, .Unknown⟩).2.2.1
  simpa [summarize_checks] using h

theorem summarize_running (checks : List Check) :
    (summarize_checks checks).running = statusCount .Running checks := by
  have h := (foldl_countStep_spec checks
    ⟨checks.length, 0, 0, 0, 0, 0, 0, .Unknown⟩).2.2.2.1
  simpa [summarize_checks] using h

theorem summarize_queued (checks : List Check) :
    (summarize_checks checks).queued = statusCount .Queued checks := by
  have h := (foldl_countStep_spec checks
    ⟨checks.length, 0, 0, 0, 0, 0, 0, .Unknown⟩).2.2.2.2.1
  simpa [summarize_checks] using h

theorem summarize_skipped (checks : List Check) :
    (summarize_checks checks).skipped = statusCount .Skipped checks := by
  have h := (foldl_countStep_spec checks
    ⟨checks.length, 0, 0, 0, 0, 0, 0, .Unknown⟩).2.2.2.2.2.1
  simpa [summarize_checks] using h

theorem summarize_cancelled (checks : List Check) :
    (summarize_checks checks).cancelled = statusCount .Cancelled checks := by
  have h := (foldl_countStep_spec checks
    ⟨checks.length, 0, 0, 0, 0, 0, 0, .Unknown⟩).2.2.2.2.2.2.1
  simpa [summarize_checks] using h

theorem statusCount_partition (checks : List Check) :
    statusCount .Passed checks + statusCount .Failed checks +
    statusCount .Running checks + statusCount .Queued checks +
    statusCount .Skipped checks + statusCount .Cancelled checks +
    statusCount .Unknown checks = checks.length := by
  induction checks with
  | nil => simp [statusCount]
  | cons c t ih =>
    cases hc : c.status <;>
      simp only [statusCount, List.countP_cons, hc] at ih ⊢ <;>
      simp <;> omega

theorem summarize_overall (checks : List Check) :
    (summarize_checks checks).overall =
      (if statusCount .Failed checks > 0 then CheckStatus.Failed
       else if statusCount .Running checks > 0 ∨ statusCount .Queued checks > 0 then
         CheckStatus.Running
       else if statusCount .Passed checks > 0 then CheckStatus.Passed
       else CheckStatus.Unknown) := by
  have h := foldl_countStep_spec checks
    ⟨checks.length, 0, 0, 0, 0, 0, 0, .Unknown⟩
  obtain ⟨-, h2, h3, h4, h5, -, -, -⟩ := h
  simp only [summarize_checks]
  simp [h2, h3, h4, h5]

/-! ### Claims about the check aggregator -/

/-- C2: `summarize_checks` assigns the overall status by the precedence
`Failed` (failed count positive) before `Running` (running or queued count
positive) before `Passed` (passed count positive) before `Unknown`; in
particular a list containing a `Failed` check is overall `Failed`, and a
non-empty list of only `Running`/`Queued` checks is overall `Running`. -/
theorem C2_overall_precedence (checks : List Check) :
    ((summarize_checks checks).overall =
      (if (summarize_checks checks).failed > 0 then CheckStatus.Failed
       else if (summarize_checks checks).running > 0 ∨ (summarize_checks checks).queued > 0 then
         CheckStatus.Running
       else if (summarize_checks checks).passed > 0 then CheckStatus.Passed
       else CheckStatus.Unknown))
  ∧ ((∃ c ∈ checks, c.status = CheckStatus.Failed) →
      (summarize_checks checks).overall = CheckStatus.Failed)
  ∧ (checks ≠ [] →
      (∀ c ∈ checks, c.status = CheckStatus.Running ∨ c.status = CheckStatus.Queued) →
      (summarize_checks checks).overall = CheckStatus.Running) := by
  refine ⟨?_, ?_, ?_⟩
  · rw [summarize_overall, summarize_failed, summarize_running, summarize_queued,
      summarize_passed]
  · rintro ⟨c, hc, hst⟩
    have hpos : 0 < statusCount .Failed checks :=
      List.countP_pos_iff.mpr ⟨c, hc, by simp [hst]⟩
    rw [summarize_overall]
    simp [hpos]
  · intro hne hall
    have hfail : statusCount .Failed checks = 0 := by
      rw [statusCount, List.countP_eq_zero]
      intro c hc
      rcases hall c hc with h1 | h1 <;> simp [h1]
    have hrq : 0 < statusCount .Running checks ∨ 0 < statusCount .Queued checks := by
      rcases checks with _ | ⟨c, t⟩
      · exact absurd rfl hne
      · rcases hall c (by simp) with h1 | h1
        · exact Or.inl (List.countP_pos_iff.mpr ⟨c, by simp, by simp [h1]⟩)
        · exact Or.inr (List.countP_pos_iff.mpr ⟨c, by simp, by simp [h1]⟩)
    rw [summarize_overall]
    rcases hrq with h | h <;> simp [hfail, h]

/-- Witness for C2 at a concrete input: the list
`[Failed, Passed, Passed]` summarizes to overall `Failed`, and the list
`[Running, Queued]` to overall `Running`. -/
theorem C2_overall_precedence_witness :
    (summarize_checks
      [⟨"a", .Failed, none, none, none⟩, ⟨"b", .Passed, none, none, none⟩,
       ⟨"c", .Passed, none, none, none⟩]).overall = CheckStatus.Failed
  ∧ (summarize_checks
      [⟨"a", .Running, none, none, none⟩, ⟨"b", .Queued, none, none, none⟩]).overall =
        CheckStatus.Running :=
  ⟨(C2_overall_precedence _).2.1 ⟨⟨"a", .Failed, none, none, none⟩, by simp, rfl⟩,
   (C2_overall_precedence _).2.2 (by simp)
     (by intro c hc; fin_cases hc <;> simp)⟩

/-- C8: the summary's `total` is the list length, every explicit count is
the number of checks with that status, and the six explicit counts plus
the implicit count of `Unknown` checks partition the total. -/
theorem C8_counts_partition (checks : List Check) :
    (summarize_checks checks).total = checks.length
  ∧ (summarize_checks checks).passed = statusCount .Passed checks
  ∧ (summarize_checks checks).failed = statusCount .Failed checks
  ∧ (summarize_checks checks).running = statusCount .Running checks
  ∧ (summarize_checks checks).queued = statusCount .Queued checks
  ∧ (summarize_checks checks).skipped = statusCount .Skipped checks
  ∧ (summarize_checks checks).cancelled = statusCount .Cancelled checks
  ∧ (summarize_checks checks).passed + (summarize_checks checks).failed +
      (summarize_checks checks).running + (summarize_checks checks).queued +
      (summarize_checks checks).skipped + (summarize_checks checks).cancelled +
      statusCount .Unknown checks = (summarize_checks checks).total := by
  refine ⟨summarize_total checks, summarize_passed checks, summarize_failed checks,
    summarize_running checks, summarize_queued checks, summarize_skipped checks,
    summarize_cancelled checks, ?_⟩
  rw [summarize_total, summarize_passed, summarize_failed, summarize_running,
    summarize_queued, summarize_skipped, summarize_cancelled]
  exact statusCount_partition checks

/-- C9: the human-readable summary text is `"no checks"` exactly on the
fourth branch of the precedence chain, i.e. whenever `failed`, `running`,
`queued` and `passed` are all zero — also for a non-empty list made of
`Skipped`/`Cancelled`/`Unknown` checks only. -/
theorem C9_no_checks_text (s : CheckSummary) (checks : List Check) :
    (s.failed = 0 → s.running = 0 → s.queued = 0 → s.passed = 0 →
      s.text = "no checks")
  ∧ ((∀ c ∈ checks,
        c.status = CheckStatus.Skipped ∨ c.status = CheckStatus.Cancelled ∨
          c.status = CheckStatus.Unknown) →
      (summarize_checks checks).text = "no checks") := by
  constructor
  · intro h1 h2 h3 h4
    simp [CheckSummary.text, h1, h2, h3, h4]
  · intro hall
    have hf : statusCount .Failed checks = 0 := by
      rw [statusCount, List.countP_eq_zero]
      intro c hc
      rcases hall c hc with h | h | h <;> simp [h]
    have hr : statusCount .Running checks = 0 := by
      rw [statusCount, List.countP_eq_zero]
      intro c hc
      rcases hall c hc with h | h | h <;> simp [h]
    have hq : statusCount .Queued checks = 0 := by
      rw [statusCount, List.countP_eq_zero]
      intro c hc
      rcases hall c hc with h | h | h <;> simp [h]
    have hp : statusCount .Passed checks = 0 := by
      rw [statusCount, List.countP_eq_zero]
      intro c hc
      rcases hall c hc with h | h | h <;> simp [h]
    simp [CheckSummary.text, summarize_failed, summarize_running, summarize_queued,
      summarize_passed, hf, hr, hq, hp]

/-- Witness for C9: a one-element list with a `Skipped` check has
`total = 1` yet summary text `"no checks"`. -/
theorem C9_no_checks_text_witness :
    (summarize_checks [⟨"lint", .Skipped, none, none, none⟩]).total = 1
  ∧ (summarize_checks [⟨"lint", .Skipped, none, none, none⟩]).text = "no checks" :=
  ⟨rfl,
   (C9_no_checks_text (summarize_checks [⟨"lint", .Skipped, none, none, none⟩])
      [⟨"lint", .Skipped, none, none, none⟩]).2
     (by intro c hc; fin_cases hc; simp)⟩

/-! ### Claims about the check normalizer and the PR resolver -/

/-- C7: the normalized check's `duration_secs` is present iff both
timestamps are present and both parse, in which case it equals
`max 0 (end - start)` in whole seconds (hence never negative; as a `Nat`
it cannot be). -/
theorem C7_duration (parseTs : String → Option Int) (raw : RawCheck) :
    ((normalize_check parseTs raw).duration_secs.isSome = true ↔
      ∃ s ts, raw.started_at = some s ∧ parseTs s = some ts ∧
        ∃ e te, raw.completed_at = some e ∧ parseTs e = some te)
  ∧ (∀ s e ts te, raw.started_at = some s → raw.completed_at = some e →
      parseTs s = some ts → parseTs e = some te →
      (normalize_check parseTs raw).duration_secs = some (max (te - ts) 0).toNat ∧
        (0 : Int) ≤ max (te - ts) 0) := by
  constructor
  · constructor
    · intro h
      rcases hs : raw.started_at with _ | s
      · simp [normalize_check, hs] at h
      rcases he : raw.completed_at with _ | e
      · simp [normalize_check, hs, he] at h
      rcases hts : parseTs s with _ | ts
      · simp [normalize_check, hs, he, hts] at h
      rcases hte : parseTs e with _ | te
      · simp [normalize_check, hs, he, hts, hte] at h
      exact ⟨s, ts, rfl, hts, e, te, rfl, hte⟩
    · rintro ⟨s, ts, hs, hts, e, te, he, hte⟩
      simp [normalize_check, hs, he, hts, hte]
  · intro s e ts te hs he hts hte
    refine ⟨?_, le_max_right _ _⟩
    simp [normalize_check, hs, he, hts, hte]

/-- Witness for C7 at a concrete input: start parsing to 5 s, end to 12 s
gives a present duration of 7 s. -/
theorem C7_duration_witness :
    (normalize_check
      (fun x => if x = "S" then some 5 else if x = "E" then some 12 else none)
      ⟨"build", none, none, some "S", some "E", none, some "pass"⟩).duration_secs =
        some 7 := by
  have h := (C7_duration
    (fun x => if x = "S" then some 5 else if x = "E" then some 12 else none)
    ⟨"build", none, none, some "S", some "E", none, some "pass"⟩).2
    "S" "E" 5 12 rfl rfl (by simp) (by simp)
  simpa using h.1

/-- C10: the PR resolver is never an error: a spawn failure, an
unsuccessful exit status, and an unparseable stdout all yield `none`, and
`some n` is returned exactly when the command ran, exited successfully and
its trimmed stdout parses as the `u64` value `n` — so resolver failure is
indistinguishable from a genuinely absent PR at this interface. -/
theorem C10_pr_resolver (cmd : Except String CmdOutput) (e : String)
    (out : CmdOutput) (n : Nat) :
    (get_pr_for_branch (.error e) = none)
  ∧ (out.success = false → get_pr_for_branch (.ok out) = none)
  ∧ (parse_u64 (String.mk (rustTrim out.stdout.toList)) = none →
      get_pr_for_branch (.ok out) = none)
  ∧ (get_pr_for_branch cmd = some n ↔
      ∃ o, cmd = .ok o ∧ o.success = true ∧
        parse_u64 (String.mk (rustTrim o.stdout.toList)) = some n) := by
  refine ⟨rfl, ?_, ?_, ?_⟩
  · intro h
    simp [get_pr_for_branch, h]
  · intro h
    simp only [String.toList] at h
    rcases hsucc : out.success with _ | _ <;> simp [get_pr_for_branch, hsucc, h]
  · constructor
    · intro h
      rcases cmd with msg | o
      · simp [get_pr_for_branch] at h
      rcases hsucc : o.success with _ | _
      · simp [get_pr_for_branch, hsucc] at h
      · exact ⟨o, rfl, hsucc, by simpa [get_pr_for_branch, hsucc] using h⟩
    · rintro ⟨o, rfl, hsucc, hparse⟩
      simp only [String.toList] at hparse
      simp [get_pr_for_branch, hsucc, hparse]

/-- Witness for C10 at concrete inputs: an unsuccessful command yields
`none`, while a successful command printing `" 42\n"` yields `some 42`. -/
theorem C10_pr_resolver_witness :
    get_pr_for_branch (.ok ⟨false, "42"⟩) = none
  ∧ get_pr_for_branch (.ok ⟨true, " 42\n"⟩) = some 42 :=
  ⟨(C10_pr_resolver (.ok ⟨false, "42"⟩) "" ⟨false, "42"⟩ 0).2.1 rfl,
   (C10_pr_resolver (.ok ⟨true, " 42\n"⟩) "" ⟨true, " 42\n"⟩ 42).2.2.2.mpr
     ⟨⟨true, " 42\n"⟩, rfl, rfl, by decide⟩⟩

/-! ### Claims about the topology parser -/

theorem filterMap_map_some_sublist {α β : Type} (f : α → Option β) (l : List α) :
    ((l.filterMap f).map Option.some).Sublist (l.map f) := by
  induction l with
  | nil => simp
  | cons a t ih =>
    cases h : f a with
    | none =>
        simp only [List.filterMap_cons, h, List.map_cons]
        exact List.Sublist.cons _ ih
    | some b =>
        simp only [List.filterMap_cons, h, List.map_cons]
        exact List.Sublist.cons₂ _ ih

theorem afterFirst_eq_none_iff {g : Char} {l : List Char} :
    afterFirst g l = none ↔ g ∉ l := by
  induction l with
  | nil => simp [afterFirst]
  | cons c t ih =>
    rcases eq_or_ne c g with rfl | h
    · simp [afterFirst]
    · simp [afterFirst, h, ih, Ne.symm h]

theorem parseLine_some {line : List Char} {b : BranchInfo} (h : parseLine line = some b) :
    b.name ≠ "" ∧ (b.is_trunk = true ↔ b.name ∈ trunkNames) := by
  simp only [parseLine] at h
  split at h
  · exact absurd h (by simp)
  split at h
  · exact absurd h (by simp)
  split at h
  · exact absurd h (by simp)
  next after_ind heq =>
    split at h
    · exact absurd h (by simp)
    next hbn =>
      injection h with h
      subst h
      constructor
      · intro hcontra
        apply hbn
        have hdata := congrArg String.data hcontra
        simpa using hdata
      · simp [List.elem_iff]

/-- C5: the topology parser is a total function from raw text to branch
descriptors (its Lean type, with no error case, embeds the `continue`-only
loop of the source); the output length never exceeds the input line count,
descriptors appear in input line order (the output, under `some`, is a
sublist of the per-line parses), no descriptor has an empty name, and
`is_trunk` holds exactly when the name is one of the fixed trunk names by
case-sensitive string equality. -/
theorem C5_parser_total (s : String) :
    (parse_gt_log_short s).length ≤ (rustLines s.toList).length
  ∧ ((parse_gt_log_short s).map Option.some).Sublist ((rustLines s.toList).map parseLine)
  ∧ (∀ b ∈ parse_gt_log_short s, b.name ≠ "")
  ∧ (∀ b ∈ parse_gt_log_short s, (b.is_trunk = true ↔ b.name ∈ trunkNames)) := by
  refine ⟨List.length_filterMap_le _ _, filterMap_map_some_sublist _ _, ?_, ?_⟩
  · intro b hb
    obtain ⟨l, -, hl⟩ := List.mem_filterMap.mp hb
    exact (parseLine_some hl).1
  · intro b hb
    obtain ⟨l, -, hl⟩ := List.mem_filterMap.mp hb
    exact (parseLine_some hl).2

/-- Witness for C5 at a concrete input: the descriptor `main` parsed from
a two-line listing has a non-empty name and is recognized as trunk. -/
theorem C5_parser_total_witness :
    (⟨"main", false, true⟩ : BranchInfo).name ≠ ""
  ∧ ((⟨"main", false, true⟩ : BranchInfo).is_trunk = true ↔
      (⟨"main", false, true⟩ : BranchInfo).name ∈ trunkNames) :=
  ⟨(C5_parser_total "◉ feature-c\n◯ main").2.2.1 _ (by decide),
   (C5_parser_total "◉ feature-c\n◯ main").2.2.2 _ (by decide)⟩

/-- C4 counterexample: on the line `"◯ a ◉ b"` the other-branch glyph `◯`
occurs strictly before `◉`, yet the parser yields `is_current = true` with
the name taken from after the `◉` — not, as the claim states,
`is_current = false` with the name taken from after the `◯`. -/
theorem C4_counterexample :
    parse_gt_log_short "◯ a ◉ b" = [{ name := "b", is_current := true, is_trunk := false }]
  ∧ parse_gt_log_short "◯ a ◉ b" ≠ [{ name := "a", is_current := false, is_trunk := false }] := by
  constructor <;> decide

/-- C4 amended: the current glyph `◉` takes precedence whenever it occurs
anywhere in the line, not only on tied positions: `is_current` is set iff
the line contains `◉`, and the name is taken from after the first `◉` when
one is present, and from after the first `◯` only otherwise. -/
theorem C4_glyph_precedence (line : List Char) (b : BranchInfo) :
    parseLine line = some b →
      b.is_current = line.contains '◉'
    ∧ (line.contains '◉' = true → b.name = String.mk (nameAfterGlyph '◉' line))
    ∧ (line.contains '◉' = false → b.name = String.mk (nameAfterGlyph '◯' line)) := by
  intro h
  simp only [parseLine] at h
  split at h
  · exact absurd h (by simp)
  split at h
  · exact absurd h (by simp)
  cases hA : afterFirst '◉' line with
  | some r =>
      have hmem : '◉' ∈ line := by
        by_contra hn
        rw [afterFirst_eq_none_iff.mpr hn] at hA
        exact Option.noConfusion hA
      have hcont : line.contains '◉' = true := List.elem_iff.mpr hmem
      simp only [hA] at h
      split at h
      · exact absurd h (by simp)
      injection h with h
      subst h
      refine ⟨rfl, fun _ => ?_, fun hfalse => ?_⟩
      · simp [nameAfterGlyph, hA]
      · rw [hcont] at hfalse
        exact absurd hfalse (by simp)
  | none =>
      have hnmem : '◉' ∉ line := afterFirst_eq_none_iff.mp hA
      have hcont : line.contains '◉' = false := by
        rcases hc : line.contains '◉' with _ | _
        · rfl
        · exact absurd (List.elem_iff.mp hc) hnmem
      simp only [hA] at h
      cases hB : afterFirst '◯' line with
      | none =>
          simp only [hB] at h
          exact absurd h (by simp)
      | some r =>
          simp only [hB] at h
          split at h
          · exact absurd h (by simp)
          injection h with h
          subst h
          refine ⟨rfl, fun htrue => ?_, fun _ => ?_⟩
          · rw [hcont] at htrue
            exact absurd htrue (by simp)
          · simp [nameAfterGlyph, hB]

/-- Witness for the amended C4 at a concrete input: the line `"◯ main"`
contains no `◉`, and its parsed name is extracted from after the `◯`. -/
theorem C4_glyph_precedence_witness :
    (⟨"main", false, true⟩ : BranchInfo).is_current = (String.toList "◯ main").contains '◉'
  ∧ (⟨"main", false, true⟩ : BranchInfo).name =
      String.mk (nameAfterGlyph '◯' (String.toList "◯ main")) :=
  ⟨(C4_glyph_precedence (String.toList "◯ main") ⟨"main", false, true⟩ (by decide)).1,
   (C4_glyph_precedence (String.toList "◯ main") ⟨"main", false, true⟩ (by decide)).2.2
     (by decide)⟩

/-! ### Claims about snapshot composition and the all-complete predicate -/

theorem branch_complete_iff (x : BranchStatus) :
    (x.is_trunk || ((x.summary.map fun s => s.running == 0 && s.queued == 0).getD true)) = true ↔
      (x.is_trunk = true ∨ x.summary = none ∨
        ∃ s, x.summary = some s ∧ s.running = 0 ∧ s.queued = 0) := by
  cases hxt : x.is_trunk <;> cases hs : x.summary <;> simp [hxt, hs]

/-- C3: `all_complete` is true iff every branch is trunk, or has no
summary, or has a summary with zero running and zero queued checks;
appending one non-trunk branch whose summary has `running = 1` to a
complete snapshot makes `all_complete` false. -/
theorem C3_all_complete_iff (st : StackStatus) (b : BranchStatus) :
    (st.all_complete = true ↔
      ∀ x ∈ st.branches, x.is_trunk = true ∨ x.summary = none ∨
        ∃ s, x.summary = some s ∧ s.running = 0 ∧ s.queued = 0)
  ∧ (st.all_complete = true → b.is_trunk = false →
      (∃ s, b.summary = some s ∧ s.running = 1) →
      StackStatus.all_complete ⟨st.branches ++ [b], st.timestamp⟩ = false) := by
  constructor
  · rw [StackStatus.all_complete, List.all_eq_true]
    exact ⟨fun h x hx => (branch_complete_iff x).mp (h x hx),
           fun h x hx => (branch_complete_iff x).mpr (h x hx)⟩
  · rintro - hbt ⟨s, hs, hr⟩
    simp [StackStatus.all_complete, List.all_append, hbt, hs, hr]

/-- Witness for C3 at a concrete input: appending a non-trunk branch with
a running check to the (complete) empty snapshot yields `all_complete = false`. -/
theorem C3_all_complete_iff_witness :
    StackStatus.all_complete
      ⟨[] ++ [{ branch := "feature", is_current := true, is_trunk := false,
                pr := some 1, checks := none,
                summary := some ⟨2, 1, 0, 1, 0, 0, 0, .Running⟩ }], "00:00:00"⟩ = false :=
  (C3_all_complete_iff ⟨[], "00:00:00"⟩
      { branch := "feature", is_current := true, is_trunk := false,
        pr := some 1, checks := none,
        summary := some ⟨2, 1, 0, 1, 0, 0, 0, .Running⟩ }).2
    rfl rfl ⟨⟨2, 1, 0, 1, 0, 0, 0, .Running⟩, rfl, rfl⟩

theorem composeBranches_trunk_mem (env : FetchEnv) :
    ∀ (l : List BranchInfo) (res : List BranchStatus),
      composeBranches env l = .ok res →
      ∀ b ∈ res, b.is_trunk = true → b.pr = none ∧ b.checks = none ∧ b.summary = none := by
  intro l
  induction l with
  | nil =>
      intro res h b hb hbt
      simp only [composeBranches] at h
      injection h with h
      subst h
      simp at hb
  | cons hd tl ih =>
      intro res h b hb hbt
      simp only [composeBranches] at h
      split at h
      · split at h
        · exact absurd h (by simp)
        next rs hrs =>
          injection h with h
          subst h
          rcases List.mem_cons.mp hb with rfl | hmem
          · exact ⟨rfl, rfl, rfl⟩
          · exact ih rs hrs b hmem hbt
      · split at h
        · exact absurd h (by simp)
        next pr checks hpc =>
          split at h
          · exact absurd h (by simp)
          next rs hrs =>
            injection h with h
            subst h
            rcases List.mem_cons.mp hb with rfl | hmem
            · exact absurd hbt (by simp)
            · exact ih rs hrs b hmem hbt

/-- C6: in both composition paths (CLI `fetch_status` and tool-service
`fetch_stack_status`), every trunk branch of the produced snapshot has
`pr = none`, `checks = none` and `summary = none`; moreover a trunk
descriptor contributes exactly the all-`none` status to the loop's output,
for every collaborator environment (so regardless of any PR or check data
that would be available for that branch name). -/
theorem C6_trunk_none (env : FetchEnv) (st : StackStatus) :
    (fetch_status env = .ok st →
      ∀ b ∈ st.branches, b.is_trunk = true →
        b.pr = none ∧ b.checks = none ∧ b.summary = none)
  ∧ (fetch_stack_status env = .ok st →
      ∀ b ∈ st.branches, b.is_trunk = true →
        b.pr = none ∧ b.checks = none ∧ b.summary = none)
  ∧ (∀ bi : BranchInfo, bi.is_trunk = true → ∀ rest,
      composeBranches env (bi :: rest) = (composeBranches env rest).map
        (fun rs => { branch := bi.name, is_current := bi.is_current, is_trunk := true,
                     pr := none, checks := none, summary := none } :: rs)) := by
  refine ⟨?_, ?_, ?_⟩
  · intro h
    simp only [fetch_status] at h
    split at h
    · exact absurd h (by simp)
    next branches hbr =>
      split at h
      · exact absurd h (by simp)
      next bss hbss =>
        injection h with h
        subst h
        intro b hb hbt
        exact composeBranches_trunk_mem env branches bss hbss b hb hbt
  · intro h
    simp only [fetch_stack_status] at h
    split at h
    · exact absurd h (by simp)
    next branches hbr =>
      split at h
      · exact absurd h (by simp)
      next bss hbss =>
        injection h with h
        subst h
        intro b hb hbt
        exact composeBranches_trunk_mem env branches bss hbss b hb hbt
  · intro bi hbi rest
    simp only [composeBranches, hbi, if_true]
    cases composeBranches env rest <;> rfl

/-- Witness for C6 at a concrete input: in `envTrunkPr` the PR lookup
answers `7` for `main`, yet the composed trunk status carries no PR, no
checks and no summary. -/
theorem C6_trunk_none_witness :
    (⟨"main", false, true, none, none, none⟩ : BranchStatus).pr = none
  ∧ (⟨"main", false, true, none, none, none⟩ : BranchStatus).checks = none
  ∧ (⟨"main", false, true, none, none, none⟩ : BranchStatus).summary = none :=
  (C6_trunk_none envTrunkPr
      ⟨[⟨"main", false, true, none, none, none⟩], "00:00:00"⟩).1
    rfl ⟨"main", false, true, none, none, none⟩ (by simp) rfl

/-- C1 counterexample: in `envChecksExitFail` the check provider reports a
hard error for the branch `feature` (the lookup command exits
unsuccessfully), a PR (`42`) is resolvable, and yet `fetch_status`
succeeds, producing a snapshot in which the branch carries an empty check
list and a `total = 0` summary — composition is not aborted. -/
theorem C1_counterexample :
    fetch_status envChecksExitFail =
      .ok { branches := [{ branch := "feature", is_current := true, is_trunk := false,
                           pr := some 42, checks := some [],
                           summary := some ⟨0, 0, 0, 0, 0, 0, 0, .Unknown⟩ }],
            timestamp := "00:00:00" } := by
  rfl

/-- C1 amended: only a spawn-level failure of the check-lookup command is
an error of `get_checks`, and exactly that failure propagates and aborts
snapshot composition (in both the CLI and the tool-service path); a
command that runs but exits unsuccessfully, or whose output fails to
deserialize, is downgraded to `Ok` with an empty check list, so
composition succeeds with the branch carrying empty check data. -/
theorem C1_check_error_propagation (env : FetchEnv) (b : BranchInfo)
    (rest : List BranchInfo) (e : String) (out : CmdOutput) :
    (env.has_gt = true → get_stack env = .ok (b :: rest) →
      env.has_gh = true → b.is_trunk = false →
      (get_pr_for_branch (env.ghPrCmd b.name)).isSome = true →
      env.ghChecksCmd b.name = .error e →
      fetch_status env = .error e ∧ fetch_stack_status env = .error e)
  ∧ (out.success = false →
      get_checks (.ok out) env.parseJson env.parseTs = .ok [])
  ∧ (out.success = true → env.parseJson out.stdout = none →
      get_checks (.ok out) env.parseJson env.parseTs = .ok []) := by
  refine ⟨?_, ?_, ?_⟩
  · intro hgt hstack hgh hbt hpr hcmd
    have hcb : composeBranches env (b :: rest) = .error e := by
      simp [composeBranches, hbt, hgh, hpr, hcmd, get_checks]
    constructor
    · simp [fetch_status, hgt, hstack, hcb]
    · simp [fetch_stack_status, hgt, hstack, hcb]
  · intro h
    simp [get_checks, h]
  · intro hs hp
    simp [get_checks, hs, hp]

/-- Witness for the amended C1 at concrete inputs: in `envChecksSpawnFail`
the spawn failure aborts both composition paths with the propagated error,
while an unsuccessful exit status yields `Ok` with zero checks. -/
theorem C1_check_error_propagation_witness :
    fetch_status envChecksSpawnFail = .error "spawn failed"
  ∧ fetch_stack_status envChecksSpawnFail = .error "spawn failed"
  ∧ get_checks (.ok ⟨false, ""⟩) envChecksSpawnFail.parseJson
      envChecksSpawnFail.parseTs = .ok [] :=
  ⟨((C1_check_error_propagation envChecksSpawnFail ⟨"feature", true, false⟩ []
        "spawn failed" ⟨false, ""⟩).1 rfl rfl rfl rfl rfl rfl).1,
   ((C1_check_error_propagation envChecksSpawnFail ⟨"feature", true, false⟩ []
        "spawn failed" ⟨false, ""⟩).1 rfl rfl rfl rfl rfl rfl).2,
   (C1_check_error_propagation envChecksSpawnFail ⟨"feature", true, false⟩ []
        "spawn failed" ⟨false, ""⟩).2.1 rfl⟩

end StackSt
